import Mathlib

/-!
Verification development for the query-planner repository: a shallow
embedding of `src/arrow.rs` (the columnar value model) and
`src/execution/aggregate.rs` (the aggregate relation operator), with
theorems settling the specified properties.

Modelling conventions:
* Rust `f32`/`f64` payloads are modelled as `Rat` (the properties under
  study concern ordering and min/max folding, not rounding or NaN).
* Rust `i32`/`i64` payloads are modelled as `Int`, `u8`..`u64` as `Nat`.
* A Rust `panic!` / `unimplemented!` / out-of-bounds `unwrap` is modelled
  as `none` (for infallible-typed functions) or as the `Fatal` error kind
  (for functions returning `Result`), keeping it distinct from the
  recoverable `Err` values of the source.
-/

set_option maxHeartbeats 1000000
set_option linter.dupNamespace false

namespace QueryPlanner

namespace Arrow

mutual

/-- Embedding of `DataType` from `src/arrow.rs`: tagged union of the
primitive type tags plus a recursive `Struct` of fields. -/
inductive DataType where
  | Boolean : DataType
  | Float32 : DataType
  | Float64 : DataType
  | Int32 : DataType
  | Int64 : DataType
  | Utf8 : DataType
  | Struct : List Field → DataType

/-- Embedding of `Field` from `src/arrow.rs`: named, typed, nullable
column descriptor. -/
inductive Field where
  | mk : String → DataType → Bool → Field

end

/-- Accessor for the `name` field of `Field`. -/
def Field.name : Field → String
  | .mk n _ _ => n

/-- Accessor for the `data_type` field of `Field`. -/
def Field.data_type : Field → DataType
  | .mk _ t _ => t

/-- Accessor for the `nullable` field of `Field`. -/
def Field.nullable : Field → Bool
  | .mk _ _ b => b

/-- Embedding of `Schema` from `src/arrow.rs`: an ordered sequence of
fields. -/
structure Schema where
  columns : List Field

/-- Embedding of `Schema::column` from `src/arrow.rs`: iterate over the
columns with their indices and return the first field whose name equals
the requested name. -/
def Schema.column (s : Schema) (name : String) : Option (Nat × Field) :=
  s.columns.enum.find? (fun c => c.2.name == name)

/-- Embedding of `Value` from `src/arrow.rs`: scalar tagged union
mirroring the primitive kinds plus a recursive `Struct`. -/
inductive Value where
  | Boolean : Bool → Value
  | Float32 : Rat → Value
  | Float64 : Rat → Value
  | Int32 : Int → Value
  | Int64 : Int → Value
  | Utf8 : String → Value
  | Struct : List Value → Value

/-- Embedding of `Array` from `src/arrow.rs`: a broadcast constant, one
homogeneous typed sequence, or a struct-of-arrays. -/
inductive Array where
  | BroadcastVariable : Value → Array
  | Boolean : List Bool → Array
  | Float32 : List Rat → Array
  | Float64 : List Rat → Array
  | Int32 : List Int → Array
  | Int64 : List Int → Array
  | Utf8 : List String → Array
  | Struct : List Array → Array

/-- Embedding of `Array::len` from `src/arrow.rs`. The `Struct` arm
reads `v[0]`, an out-of-bounds (fatal) access when the child list is
empty; that fatal case is modelled as `none`. -/
def Array.len : Array → Option Nat
  | .BroadcastVariable _ => some 1
  | .Boolean v => some v.length
  | .Float32 v => some v.length
  | .Float64 v => some v.length
  | .Int32 v => some v.length
  | .Int64 v => some v.length
  | .Utf8 v => some v.length
  | .Struct [] => none
  | .Struct (c :: _) => c.len

/-- Embedding of `Array::eq` from `src/arrow.rs`: column-vs-literal for
the five typed kinds, column-vs-column zipped pairwise for the same five
kinds, every other combination a fatal type mismatch (`none`). -/
def Array.eq : Array → Array → Option (List Bool)
  | .Float32 l, .BroadcastVariable (.Float32 b) => some (l.map (fun a => a == b))
  | .Float64 l, .BroadcastVariable (.Float64 b) => some (l.map (fun a => a == b))
  | .Int32 l, .BroadcastVariable (.Int32 b) => some (l.map (fun a => a == b))
  | .Int64 l, .BroadcastVariable (.Int64 b) => some (l.map (fun a => a == b))
  | .Utf8 l, .BroadcastVariable (.Utf8 b) => some (l.map (fun a => a == b))
  | .Float32 l, .Float32 r => some (List.zipWith (fun a b => a == b) l r)
  | .Float64 l, .Float64 r => some (List.zipWith (fun a b => a == b) l r)
  | .Int32 l, .Int32 r => some (List.zipWith (fun a b => a == b) l r)
  | .Int64 l, .Int64 r => some (List.zipWith (fun a b => a == b) l r)
  | .Utf8 l, .Utf8 r => some (List.zipWith (fun a b => a == b) l r)
  | _, _ => none

/-- Embedding of `Array::not_eq` from `src/arrow.rs`. -/
def Array.not_eq : Array → Array → Option (List Bool)
  | .Float32 l, .BroadcastVariable (.Float32 b) => some (l.map (fun a => a != b))
  | .Float64 l, .BroadcastVariable (.Float64 b) => some (l.map (fun a => a != b))
  | .Int32 l, .BroadcastVariable (.Int32 b) => some (l.map (fun a => a != b))
  | .Int64 l, .BroadcastVariable (.Int64 b) => some (l.map (fun a => a != b))
  | .Utf8 l, .BroadcastVariable (.Utf8 b) => some (l.map (fun a => a != b))
  | .Float32 l, .Float32 r => some (List.zipWith (fun a b => a != b) l r)
  | .Float64 l, .Float64 r => some (List.zipWith (fun a b => a != b) l r)
  | .Int32 l, .Int32 r => some (List.zipWith (fun a b => a != b) l r)
  | .Int64 l, .Int64 r => some (List.zipWith (fun a b => a != b) l r)
  | .Utf8 l, .Utf8 r => some (List.zipWith (fun a b => a != b) l r)
  | _, _ => none

/-- Embedding of `Array::lt` from `src/arrow.rs`. -/
def Array.lt : Array → Array → Option (List Bool)
  | .Float32 l, .BroadcastVariable (.Float32 b) => some (l.map (fun a => decide (a < b)))
  | .Float64 l, .BroadcastVariable (.Float64 b) => some (l.map (fun a => decide (a < b)))
  | .Int32 l, .BroadcastVariable (.Int32 b) => some (l.map (fun a => decide (a < b)))
  | .Int64 l, .BroadcastVariable (.Int64 b) => some (l.map (fun a => decide (a < b)))
  | .Utf8 l, .BroadcastVariable (.Utf8 b) => some (l.map (fun a => decide (a < b)))
  | .Float32 l, .Float32 r => some (List.zipWith (fun a b => decide (a < b)) l r)
  | .Float64 l, .Float64 r => some (List.zipWith (fun a b => decide (a < b)) l r)
  | .Int32 l, .Int32 r => some (List.zipWith (fun a b => decide (a < b)) l r)
  | .Int64 l, .Int64 r => some (List.zipWith (fun a b => decide (a < b)) l r)
  | .Utf8 l, .Utf8 r => some (List.zipWith (fun a b => decide (a < b)) l r)
  | _, _ => none

/-- Embedding of `Array::lt_eq` from `src/arrow.rs`. -/
def Array.lt_eq : Array → Array → Option (List Bool)
  | .Float32 l, .BroadcastVariable (.Float32 b) => some (l.map (fun a => decide (a ≤ b)))
  | .Float64 l, .BroadcastVariable (.Float64 b) => some (l.map (fun a => decide (a ≤ b)))
  | .Int32 l, .BroadcastVariable (.Int32 b) => some (l.map (fun a => decide (a ≤ b)))
  | .Int64 l, .BroadcastVariable (.Int64 b) => some (l.map (fun a => decide (a ≤ b)))
  | .Utf8 l, .BroadcastVariable (.Utf8 b) => some (l.map (fun a => decide (a ≤ b)))
  | .Float32 l, .Float32 r => some (List.zipWith (fun a b => decide (a ≤ b)) l r)
  | .Float64 l, .Float64 r => some (List.zipWith (fun a b => decide (a ≤ b)) l r)
  | .Int32 l, .Int32 r => some (List.zipWith (fun a b => decide (a ≤ b)) l r)
  | .Int64 l, .Int64 r => some (List.zipWith (fun a b => decide (a ≤ b)) l r)
  | .Utf8 l, .Utf8 r => some (List.zipWith (fun a b => decide (a ≤ b)) l r)
  | _, _ => none

/-- Embedding of `Array::gt` from `src/arrow.rs`. -/
def Array.gt : Array → Array → Option (List Bool)
  | .Float32 l, .BroadcastVariable (.Float32 b) => some (l.map (fun a => decide (b < a)))
  | .Float64 l, .BroadcastVariable (.Float64 b) => some (l.map (fun a => decide (b < a)))
  | .Int32 l, .BroadcastVariable (.Int32 b) => some (l.map (fun a => decide (b < a)))
  | .Int64 l, .BroadcastVariable (.Int64 b) => some (l.map (fun a => decide (b < a)))
  | .Utf8 l, .BroadcastVariable (.Utf8 b) => some (l.map (fun a => decide (b < a)))
  | .Float32 l, .Float32 r => some (List.zipWith (fun a b => decide (b < a)) l r)
  | .Float64 l, .Float64 r => some (List.zipWith (fun a b => decide (b < a)) l r)
  | .Int32 l, .Int32 r => some (List.zipWith (fun a b => decide (b < a)) l r)
  | .Int64 l, .Int64 r => some (List.zipWith (fun a b => decide (b < a)) l r)
  | .Utf8 l, .Utf8 r => some (List.zipWith (fun a b => decide (b < a)) l r)
  | _, _ => none

/-- Embedding of `Array::gt_eq` from `src/arrow.rs`. -/
def Array.gt_eq : Array → Array → Option (List Bool)
  | .Float32 l, .BroadcastVariable (.Float32 b) => some (l.map (fun a => decide (b ≤ a)))
  | .Float64 l, .BroadcastVariable (.Float64 b) => some (l.map (fun a => decide (b ≤ a)))
  | .Int32 l, .BroadcastVariable (.Int32 b) => some (l.map (fun a => decide (b ≤ a)))
  | .Int64 l, .BroadcastVariable (.Int64 b) => some (l.map (fun a => decide (b ≤ a)))
  | .Utf8 l, .BroadcastVariable (.Utf8 b) => some (l.map (fun a => decide (b ≤ a)))
  | .Float32 l, .Float32 r => some (List.zipWith (fun a b => decide (b ≤ a)) l r)
  | .Float64 l, .Float64 r => some (List.zipWith (fun a b => decide (b ≤ a)) l r)
  | .Int32 l, .Int32 r => some (List.zipWith (fun a b => decide (b ≤ a)) l r)
  | .Int64 l, .Int64 r => some (List.zipWith (fun a b => decide (b ≤ a)) l r)
  | .Utf8 l, .Utf8 r => some (List.zipWith (fun a b => decide (b ≤ a)) l r)
  | _, _ => none

/-- The zip-filter-map kernel shared by all arms of `Array::filter` in
`src/arrow.rs`: keep the elements whose paired predicate entry is true. -/
def filterVec {α : Type} (v : List α) (b : List Bool) : List α :=
  ((v.zip b).filter (fun p => p.2)).map (fun p => p.1)

/-- Embedding of `Array::filter` from `src/arrow.rs`: the predicate must
be a `Boolean` array (anything else panics, modelled `none`); the six
typed variants are filtered by zipping with the predicate; broadcast and
struct inputs are unimplemented (modelled `none`). -/
def Array.filter (self bools : Array) : Option Array :=
  match bools with
  | .Boolean b =>
    match self with
    | .Boolean v => some (.Boolean (filterVec v b))
    | .Float32 v => some (.Float32 (filterVec v b))
    | .Float64 v => some (.Float64 (filterVec v b))
    | .Int32 v => some (.Int32 (filterVec v b))
    | .Int64 v => some (.Int64 (filterVec v b))
    | .Utf8 v => some (.Utf8 (filterVec v b))
    | _ => none
  | _ => none

/-- Embedding of `impl PartialOrd for Value` (`partial_cmp`) from
`src/arrow.rs`. The outer `Option` models the `unimplemented!` panic on
a missing coercion rule; the inner `Option Ordering` is the Rust return
value, where `some none` is Rust's `None` (no ordering). -/
def Value.partial_cmp : Value → Value → Option (Option Ordering)
  | .Float64 l, .Float64 r => some (some (compare l r))
  | .Float64 l, .Int64 r => some (some (compare l (r : Rat)))
  | .Float64 _, _ => none
  | .Int64 l, .Float64 r => some (some (compare (l : Rat) r))
  | .Int64 l, .Int64 r => some (some (compare l r))
  | .Int64 _, _ => none
  | .Utf8 l, .Utf8 r => some (some (compare l r))
  | .Utf8 _, _ => none
  | .Struct _, _ => some none
  | _, _ => none

end Arrow

namespace Execution

/-- Modelled from the spec: `ExecutionError` lives in
`src/execution/error.rs`, which is not among the provided sources; §7 of
the spec names the `NotImplemented`, `ExecutionError` and `General`
variants, each carrying a reason. The extra `Fatal` variant models Rust
panics (`panic!`, `unimplemented!`, out-of-bounds access, failed
`unwrap`), which the spec distinguishes from the recoverable variants. -/
inductive ExecutionError where
  | NotImplemented : String → ExecutionError
  | ExecutionError : String → ExecutionError
  | General : String → ExecutionError
  | Fatal : String → ExecutionError

/-- Modelled from the spec: `ScalarValue` lives in `src/logicalplan.rs`,
which is not among the provided sources; §4.2 of the spec lists the
scalar kinds the Min/Max reducer covers (UInt8/16/32/64, Int8/16/32/64,
Float32, Float64), which are exactly the kinds `aggregate.rs` matches
on, so the model carries those ten variants. -/
inductive ScalarValue where
  | UInt8 : Nat → ScalarValue
  | UInt16 : Nat → ScalarValue
  | UInt32 : Nat → ScalarValue
  | UInt64 : Nat → ScalarValue
  | Int8 : Int → ScalarValue
  | Int16 : Int → ScalarValue
  | Int32 : Int → ScalarValue
  | Int64 : Int → ScalarValue
  | Float32 : Rat → ScalarValue
  | Float64 : Rat → ScalarValue
deriving DecidableEq

/-- Modelled from the spec: `AggregateType` lives in
`src/execution/expression.rs`, which is not among the provided sources;
§2 and §4.2 of the spec name `Min` and `Max` as implemented variants and
`Sum`/`Count` as named extension points. -/
inductive AggregateType where
  | Min : AggregateType
  | Max : AggregateType
  | Sum : AggregateType
  | Count : AggregateType
deriving DecidableEq

/-- Model of the external arrow crate `ArrayRef` restricted to the array
kinds `src/execution/aggregate.rs` touches: `Int32Array`,
`Float64Array` and `BinaryArray` (used for `Utf8` data). -/
inductive ArrayRef where
  | Int32Array : List Int → ArrayRef
  | Float64Array : List Rat → ArrayRef
  | BinaryArray : List String → ArrayRef

/-- Model of the external arrow `Array::data_type` as used by the
grouped path's key-extraction dispatch. -/
def ArrayRef.data_type : ArrayRef → Arrow.DataType
  | .Int32Array _ => .Int32
  | .Float64Array _ => .Float64
  | .BinaryArray _ => .Utf8

/-- Model of the external arrow `RecordBatch`: a row count plus the
columns; batches flow in through this interface (§6 of the spec). -/
structure RecordBatch where
  num_rows : Nat
  columns : List ArrayRef

/-- Modelled from the spec: `RuntimeExpr` lives in
`src/execution/expression.rs`, which is not among the provided sources;
`aggregate.rs` matches on its `AggregateFunction` variant, whose fields
`f` (function kind), `args` (compiled argument expressions: batch →
result of one array) and `t` (declared output type) are the ones used,
and calls `get_func()` on group expressions to obtain their compiled
batch → array function (`Compiled` variant). -/
inductive RuntimeExpr where
  | AggregateFunction : AggregateType → List (RecordBatch → Except ExecutionError ArrayRef) →
      Arrow.DataType → RuntimeExpr
  | Compiled : (RecordBatch → Except ExecutionError ArrayRef) → RuntimeExpr

/-- Modelled from the spec: `RuntimeExpr::get_func` returns the compiled
batch-to-array function of a non-aggregate runtime expression. -/
def RuntimeExpr.get_func : RuntimeExpr → (RecordBatch → Except ExecutionError ArrayRef)
  | .Compiled f => f
  | .AggregateFunction _ _ _ => fun _ => .error (.Fatal "get_func on aggregate expression")

/-- Lift a panicking (`Option`-valued) computation into the `Result`
shape of the enclosing source function, turning the panic into `Fatal`. -/
def liftPanic {α : Type} (o : Option α) (msg : String) : Except ExecutionError α :=
  match o with
  | some a => .ok a
  | none => .error (.Fatal msg)

/-- Embedding of `GroupByScalar` from `src/execution/aggregate.rs`:
hashable key component kinds (no floats). -/
inductive GroupByScalar where
  | Boolean : Bool → GroupByScalar
  | UInt8 : Nat → GroupByScalar
  | UInt16 : Nat → GroupByScalar
  | UInt32 : Nat → GroupByScalar
  | UInt64 : Nat → GroupByScalar
  | Int8 : Int → GroupByScalar
  | Int16 : Int → GroupByScalar
  | Int32 : Int → GroupByScalar
  | Int64 : Int → GroupByScalar
  | Utf8 : String → GroupByScalar
deriving DecidableEq

/-- Embedding of `MinFunction` from `src/execution/aggregate.rs`. -/
structure MinFunction where
  data_type : Arrow.DataType
  value : Option ScalarValue

/-- Embedding of `MinFunction::new`. -/
def MinFunction.new (data_type : Arrow.DataType) : MinFunction :=
  { data_type := data_type, value := none }

/-- Embedding of `MinFunction::accumulate_scalar`: an absent running
value is replaced by the incoming one; an absent incoming value is a
no-op; two present values of the same scalar kind reduce by `min`; a
kind mismatch panics (`none`). -/
def MinFunction.accumulate_scalar (self : MinFunction) (value : Option ScalarValue) :
    Option MinFunction :=
  if self.value.isNone then
    some { self with value := value }
  else
    match self.value, value with
    | _, none => some self
    | some (.UInt8 a), some (.UInt8 b) => some { self with value := some (.UInt8 (min a b)) }
    | some (.UInt16 a), some (.UInt16 b) => some { self with value := some (.UInt16 (min a b)) }
    | some (.UInt32 a), some (.UInt32 b) => some { self with value := some (.UInt32 (min a b)) }
    | some (.UInt64 a), some (.UInt64 b) => some { self with value := some (.UInt64 (min a b)) }
    | some (.Int8 a), some (.Int8 b) => some { self with value := some (.Int8 (min a b)) }
    | some (.Int16 a), some (.Int16 b) => some { self with value := some (.Int16 (min a b)) }
    | some (.Int32 a), some (.Int32 b) => some { self with value := some (.Int32 (min a b)) }
    | some (.Int64 a), some (.Int64 b) => some { self with value := some (.Int64 (min a b)) }
    | some (.Float32 a), some (.Float32 b) => some { self with value := some (.Float32 (min a b)) }
    | some (.Float64 a), some (.Float64 b) => some { self with value := some (.Float64 (min a b)) }
    | some _, some _ => none
    | none, some _ => none

/-- Embedding of `MinFunction::result`. -/
def MinFunction.result (self : MinFunction) : Option ScalarValue :=
  self.value

/-- Embedding of `MaxFunction` from `src/execution/aggregate.rs`. -/
structure MaxFunction where
  data_type : Arrow.DataType
  value : Option ScalarValue

/-- Embedding of `MaxFunction::new`. -/
def MaxFunction.new (data_type : Arrow.DataType) : MaxFunction :=
  { data_type := data_type, value := none }

/-- Embedding of `MaxFunction::accumulate_scalar`, the `max` dual of
`MinFunction::accumulate_scalar`. -/
def MaxFunction.accumulate_scalar (self : MaxFunction) (value : Option ScalarValue) :
    Option MaxFunction :=
  if self.value.isNone then
    some { self with value := value }
  else
    match self.value, value with
    | _, none => some self
    | some (.UInt8 a), some (.UInt8 b) => some { self with value := some (.UInt8 (max a b)) }
    | some (.UInt16 a), some (.UInt16 b) => some { self with value := some (.UInt16 (max a b)) }
    | some (.UInt32 a), some (.UInt32 b) => some { self with value := some (.UInt32 (max a b)) }
    | some (.UInt64 a), some (.UInt64 b) => some { self with value := some (.UInt64 (max a b)) }
    | some (.Int8 a), some (.Int8 b) => some { self with value := some (.Int8 (max a b)) }
    | some (.Int16 a), some (.Int16 b) => some { self with value := some (.Int16 (max a b)) }
    | some (.Int32 a), some (.Int32 b) => some { self with value := some (.Int32 (max a b)) }
    | some (.Int64 a), some (.Int64 b) => some { self with value := some (.Int64 (max a b)) }
    | some (.Float32 a), some (.Float32 b) => some { self with value := some (.Float32 (max a b)) }
    | some (.Float64 a), some (.Float64 b) => some { self with value := some (.Float64 (max a b)) }
    | some _, some _ => none
    | none, some _ => none

/-- Embedding of `MaxFunction::result`. -/
def MaxFunction.result (self : MaxFunction) : Option ScalarValue :=
  self.value

/-- Closed-world rendering of the `dyn AggregateFunction` trait object:
`create_accumulators` only ever boxes a `MinFunction` or a
`MaxFunction`. -/
inductive AggFunction where
  | MinF : MinFunction → AggFunction
  | MaxF : MaxFunction → AggFunction

/-- Trait dispatch of `accumulate_scalar` on the boxed function. -/
def AggFunction.accumulate_scalar : AggFunction → Option ScalarValue → Option AggFunction
  | .MinF m, v => (m.accumulate_scalar v).map .MinF
  | .MaxF m, v => (m.accumulate_scalar v).map .MaxF

/-- Trait dispatch of `result` on the boxed function. -/
def AggFunction.result : AggFunction → Option ScalarValue
  | .MinF m => m.result
  | .MaxF m => m.result

/-- Trait dispatch of `data_type` on the boxed function. -/
def AggFunction.data_type : AggFunction → Arrow.DataType
  | .MinF m => m.data_type
  | .MaxF m => m.data_type

/-- Embedding of `AccumulatorSet` from `src/execution/aggregate.rs`: the
aggregate functions, index-aligned with the aggregate expressions. -/
structure AccumulatorSet where
  aggr_values : List AggFunction

/-- Embedding of `AccumulatorSet::accumulate_scalar`: fold one optional
scalar into the `i`-th aggregate function (out-of-bounds `i` panics). -/
def AccumulatorSet.accumulate_scalar (self : AccumulatorSet) (i : Nat)
    (value : Option ScalarValue) : Option AccumulatorSet :=
  match self.aggr_values.get? i with
  | none => none
  | some f => (f.accumulate_scalar value).map (fun f2 => ⟨self.aggr_values.set i f2⟩)

/-- Embedding of `create_accumulators` from `src/execution/aggregate.rs`:
one aggregate function per aggregate expression, chosen by the declared
function kind; any other expression or kind panics (`none`). -/
def create_accumulators (aggr_expr : List RuntimeExpr) : Option AccumulatorSet :=
  (aggr_expr.mapM (fun (e : RuntimeExpr) =>
    match e with
    | .AggregateFunction f _ t =>
      match f with
      | .Min => some (AggFunction.MinF (MinFunction.new t))
      | .Max => some (AggFunction.MaxF (MaxFunction.new t))
      | _ => none
    | _ => none)).map (fun fs => ⟨fs⟩)

/-- Embedding of `array_min` from `src/execution/aggregate.rs`, with the
external arrow kernel `array_ops::min` modelled by `List.min?`:
only `Float64` is wired; a non-`Float64` array under a `Float64` type
tag is a failed downcast-unwrap (fatal). -/
def array_min (array : ArrayRef) (dt : Arrow.DataType) :
    Except ExecutionError (Option ScalarValue) :=
  match dt with
  | .Float64 =>
    match array with
    | .Float64Array v =>
      match v.min? with
      | some n => .ok (some (.Float64 n))
      | none => .ok none
    | _ => .error (.Fatal "downcast to Float64Array failed")
  | _ => .error (.NotImplemented "Unsupported data type for MIN")

/-- Embedding of `array_max` from `src/execution/aggregate.rs`, the
`List.max?` dual of `array_min`. -/
def array_max (array : ArrayRef) (dt : Arrow.DataType) :
    Except ExecutionError (Option ScalarValue) :=
  match dt with
  | .Float64 =>
    match array with
    | .Float64Array v =>
      match v.max? with
      | some n => .ok (some (.Float64 n))
      | none => .ok none
    | _ => .error (.Fatal "downcast to Float64Array failed")
  | _ => .error (.NotImplemented "Unsupported data type for MAX")

/-- Embedding of `update_accumulators` from `src/execution/aggregate.rs`:
for each aggregate expression, evaluate its first argument against the
batch, extract the typed scalar at the given row (`Int32` and `Float64`
wired, others panic) and fold it into the corresponding accumulator.
Every failure in this function is a panic in the source (`none`). -/
def update_accumulators (batch : RecordBatch) (row : Nat)
    (accumulator_set : AccumulatorSet) (aggr_expr : List RuntimeExpr) :
    Option AccumulatorSet :=
  aggr_expr.enum.foldlM (fun acc je =>
    match je.2 with
    | .AggregateFunction _ args t =>
      match args.head? with
      | some arg =>
        match arg batch with
        | .ok array =>
          match t with
          | .Int32 =>
            (match array with
             | .Int32Array z => (z.get? row).bind
                 (fun x => acc.accumulate_scalar je.1 (some (.Int32 x)))
             | _ => none)
          | .Float64 =>
            (match array with
             | .Float64Array z => (z.get? row).bind
                 (fun x => acc.accumulate_scalar je.1 (some (.Float64 x)))
             | _ => none)
          | _ => none
        | .error _ => none
      | none => none
    | _ => none) accumulator_set

/-- Output column produced by the arrow builders used in
`without_group_by`: a typed sequence with null slots. -/
inductive BuiltArray where
  | Int32Array : List (Option Int) → BuiltArray
  | Float64Array : List (Option Rat) → BuiltArray
deriving DecidableEq

/-- Model of an output `RecordBatch` built by `RecordBatch::new(schema,
result_columns)`. -/
structure OutBatch where
  schema : Arrow.Schema
  columns : List BuiltArray

/-- Embedding of the accumulation loop body of
`AggregateRelation::without_group_by` for one input batch: for each
aggregate expression, evaluate its argument, reduce the whole array with
the type-dispatched `array_min`/`array_max`, and fold the reduction into
the accumulator at the same index. -/
def processAggrBatch (aggr_expr : List RuntimeExpr) (accumulator_set : AccumulatorSet)
    (batch : RecordBatch) : Except ExecutionError AccumulatorSet :=
  aggr_expr.enum.foldlM (fun acc ie =>
    match ie.2 with
    | .AggregateFunction f args t =>
      match args.head? with
      | some arg =>
        match arg batch with
        | .ok array =>
          match f with
          | .Min => do
            let v ← array_min array t
            liftPanic (acc.accumulate_scalar ie.1 v) "accumulate_scalar panicked"
          | .Max => do
            let v ← array_max array t
            liftPanic (acc.accumulate_scalar ie.1 v) "accumulate_scalar panicked"
          | _ => .error (.NotImplemented "Unsupported aggregate function")
        | .error _ =>
          .error (.ExecutionError "Failed to evaluate argument to aggregate function")
      | none => .error (.Fatal "args[0] out of bounds")
    | _ => .error (.General "Invalid aggregate expression")) accumulator_set

/-- Embedding of the output-construction loop of
`AggregateRelation::without_group_by` for one accumulator: an `Int32`
declared type finishes a builder nothing was pushed to (empty column); a
`Float64` declared type pushes the accumulated scalar or a null; a
non-`Float64` accumulated scalar under a `Float64` tag panics, and any
other declared type is unimplemented (both fatal). -/
def finishColumn (accum : AggFunction) : Except ExecutionError BuiltArray :=
  match accum.data_type with
  | .Int32 => .ok (.Int32Array [])
  | .Float64 =>
    match accum.result with
    | some (.Float64 n) => .ok (.Float64Array [some n])
    | some _ => .error (.Fatal "non-Float64 scalar in Float64 builder")
    | none => .ok (.Float64Array [none])
  | _ => .error (.Fatal "unimplemented result type")

/-- Embedding of `AggregateRelation::without_group_by`: drain the input
(modelled as the list of batches the upstream relation yields),
accumulating each batch, then build one output batch with one column per
aggregate expression. -/
def without_group_by (schema : Arrow.Schema) (aggr_expr : List RuntimeExpr)
    (input : List RecordBatch) : Except ExecutionError (Option OutBatch) := do
  let accum0 ← liftPanic (create_accumulators aggr_expr) "create_accumulators panicked"
  let accum ← input.foldlM (fun acc batch => processAggrBatch aggr_expr acc batch) accum0
  let result_columns ← accum.aggr_values.mapM finishColumn
  return some { schema := schema, columns := result_columns }

/-- The grouped path's map from composite key to accumulator set,
modelled as an association list in insertion order (the source uses
`FnvHashMap`; only key lookup, insertion, and the final key set are
observable in the claims). -/
abbrev GroupMap := List (List GroupByScalar × AccumulatorSet)

/-- Model of `map.get(&key)`: the entry at the unique matching key. -/
def mapGet (m : GroupMap) (key : List GroupByScalar) : Option AccumulatorSet :=
  (m.find? (fun p => decide (p.1 = key))).map (fun p => p.2)

/-- Model of writing back through the shared `Rc<RefCell<AccumulatorSet>>`
handle: replace the accumulator set stored at the matching key. -/
def mapUpdate (m : GroupMap) (key : List GroupByScalar) (v : AccumulatorSet) : GroupMap :=
  m.map (fun p => if p.1 = key then (p.1, v) else p)

/-- Embedding of the per-row composite-key construction in
`AggregateRelation::with_group_by`: from each group column, extract a
`GroupByScalar` chosen by the column's data type (`Int32` and `Utf8`
wired, everything else unimplemented); out-of-bounds rows panic. -/
def rowKey (group_by_keys : List ArrayRef) (row : Nat) : Option (List GroupByScalar) :=
  group_by_keys.mapM (fun col =>
    match col.data_type with
    | .Int32 =>
      match col with
      | .Int32Array array => (array.get? row).map GroupByScalar.Int32
      | _ => none
    | .Utf8 =>
      match col with
      | .BinaryArray array => (array.get? row).map GroupByScalar.Utf8
      | _ => none
    | _ => none)

/-- Embedding of the per-row body of `AggregateRelation::with_group_by`:
build the key, and either update the accumulator set already mapped to
it or create, update and insert a fresh one. -/
def processRow (aggr_expr : List RuntimeExpr) (batch : RecordBatch)
    (group_by_keys : List ArrayRef) (m : GroupMap) (row : Nat) : Option GroupMap := do
  let key ← rowKey group_by_keys row
  match mapGet m key with
  | some accumulator_set => do
    let updated ← update_accumulators batch row accumulator_set aggr_expr
    return mapUpdate m key updated
  | none => do
    let accumulator_set ← create_accumulators aggr_expr
    let updated ← update_accumulators batch row accumulator_set aggr_expr
    return m ++ [(key, updated)]

/-- Embedding of the per-batch body of `AggregateRelation::with_group_by`:
evaluate every group expression against the batch (recoverable errors
propagate), then process each row index in order (failures inside the
row loop are panics in the source). -/
def processGroupBatch (group_expr aggr_expr : List RuntimeExpr) (m : GroupMap)
    (batch : RecordBatch) : Except ExecutionError GroupMap := do
  let group_by_keys ← group_expr.mapM (fun e => e.get_func batch)
  liftPanic ((List.range batch.num_rows).foldlM
    (fun mm row => processRow aggr_expr batch group_by_keys mm row) m)
    "row processing panicked"

/-- The input-draining loop of `AggregateRelation::with_group_by`:
fold every batch of the input into the group map, starting empty. -/
def buildMap (group_expr aggr_expr : List RuntimeExpr) (input : List RecordBatch) :
    Except ExecutionError GroupMap :=
  input.foldlM (fun m batch => processGroupBatch group_expr aggr_expr m batch) []

/-- Embedding of `AggregateRelation::with_group_by`: build the group map,
then build the output columns — the output-construction loop iterates the
map but pushes nothing, so `result_columns` stays empty. -/
def with_group_by (schema : Arrow.Schema) (group_expr aggr_expr : List RuntimeExpr)
    (input : List RecordBatch) : Except ExecutionError (Option OutBatch) := do
  let _map ← buildMap group_expr aggr_expr input
  let result_columns : List BuiltArray := []
  return some { schema := schema, columns := result_columns }

/-- Embedding of `Relation::next` for `AggregateRelation`: dispatch on
whether the group-expression list is empty. -/
def next (schema : Arrow.Schema) (group_expr aggr_expr : List RuntimeExpr)
    (input : List RecordBatch) : Except ExecutionError (Option OutBatch) :=
  if group_expr.isEmpty then without_group_by schema aggr_expr input
  else with_group_by schema group_expr aggr_expr input

end Execution

namespace Arrow

/-- Specification-side predicate, written from the spec's words (§4.1):
a comparison call shape is supported when both operands are the same
non-broadcast, non-struct variant wired into the comparison kernels
(Float32, Float64, Int32, Int64, Utf8), or the left operand is such a
typed column and the right a `BroadcastVariable` carrying a value of the
matching kind. Used to compare against the implementation's actual
domain. -/
def comparisonSupported : Array → Array → Bool
  | .Float32 _, .BroadcastVariable (.Float32 _) => true
  | .Float64 _, .BroadcastVariable (.Float64 _) => true
  | .Int32 _, .BroadcastVariable (.Int32 _) => true
  | .Int64 _, .BroadcastVariable (.Int64 _) => true
  | .Utf8 _, .BroadcastVariable (.Utf8 _) => true
  | .Float32 _, .Float32 _ => true
  | .Float64 _, .Float64 _ => true
  | .Int32 _, .Int32 _ => true
  | .Int64 _, .Int64 _ => true
  | .Utf8 _, .Utf8 _ => true
  | _, _ => false

/-- The schema of the reference fixture (`uk_cities.csv`) used by the
tests in `src/execution/aggregate.rs` and by §8 of the spec. -/
def ukSchema : Schema :=
  ⟨[Field.mk "name" DataType.Utf8 false,
    Field.mk "lat" DataType.Float64 false,
    Field.mk "lng" DataType.Float64 false]⟩

end Arrow

namespace Execution

/-- Merge of two optional running reductions by `min`, the shape in
which `MinFunction::accumulate_scalar` combines the previous state with
a new batch's reduction. -/
def optMin (a b : Option Rat) : Option Rat :=
  match a, b with
  | none, b => b
  | a, none => a
  | some x, some y => some (min x y)

/-- Merge of two optional running reductions by `max`. -/
def optMax (a b : Option Rat) : Option Rat :=
  match a, b with
  | none, b => b
  | a, none => a
  | some x, some y => some (max x y)

/-- A compiled column expression selecting column 0 of a batch, the
shape produced by the expression compiler for `Expr::Column(0)`. -/
def col0 : RecordBatch → Except ExecutionError ArrayRef := fun b =>
  match b.columns.head? with
  | some c => .ok c
  | none => .error (.ExecutionError "column 0 out of bounds")

/-- A compiled column expression selecting column 1 of a batch. -/
def col1 : RecordBatch → Except ExecutionError ArrayRef := fun b =>
  match b.columns.get? 1 with
  | some c => .ok c
  | none => .error (.ExecutionError "column 1 out of bounds")

/-- The aggregate expression `MIN(column 0)` with declared `Float64`
output, as the tests build for `min(lat)`. -/
def minF64Expr : RuntimeExpr := .AggregateFunction .Min [col0] .Float64

/-- The aggregate expression `MAX(column 0)` with declared `Float64`
output. -/
def maxF64Expr : RuntimeExpr := .AggregateFunction .Max [col0] .Float64

/-- A one-column `Float64` input batch holding the given values. -/
def mkF64Batch (v : List Rat) : RecordBatch :=
  { num_rows := v.length, columns := [.Float64Array v] }

/-- The composite keys of the given row indices, extracted with
`rowKey` from the evaluated group columns. -/
def collectKeys (group_by_keys : List ArrayRef) : List Nat → Option (List (List GroupByScalar))
  | [] => some []
  | r :: rs => do
    let k ← rowKey group_by_keys r
    let ks ← collectKeys group_by_keys rs
    return k :: ks

/-- The composite keys extracted from one batch, row by row, exactly as
the key-construction step of `with_group_by` extracts them: evaluate
every group expression, then build one composite key per row index. -/
def batchKeys (group_expr : List RuntimeExpr) (batch : RecordBatch) :
    Except ExecutionError (List (List GroupByScalar)) := do
  let group_by_keys ← group_expr.mapM (fun e => e.get_func batch)
  liftPanic (collectKeys group_by_keys (List.range batch.num_rows))
    "key extraction panicked"

/-- All composite keys occurring in the input, in row order. -/
def inputKeys (group_expr : List RuntimeExpr) : List RecordBatch →
    Except ExecutionError (List (List GroupByScalar))
  | [] => .ok []
  | b :: bs => do
    let bk ← batchKeys group_expr b
    let rest ← inputKeys group_expr bs
    return bk ++ rest


/-- A group expression over column 0, used by concrete grouped runs. -/
def gExprWit : RuntimeExpr := .Compiled col0

/-- The aggregate expression `MAX(column 1)` with declared `Float64`
output, used by concrete grouped runs. -/
def aExprWit : RuntimeExpr := .AggregateFunction .Max [col1] .Float64

/-- Two one-row batches with an `Int32` group column and a `Float64`
aggregate column. -/
def batchesWit : List RecordBatch :=
  [⟨1, [.Int32Array [5], .Float64Array [4]]⟩, ⟨1, [.Int32Array [6], .Float64Array [7]]⟩]

/-- The group map `buildMap` produces on `batchesWit`. -/
def mapWit : GroupMap :=
  [([.Int32 5], ⟨[.MaxF ⟨.Float64, some (.Float64 4)⟩]⟩),
   ([.Int32 6], ⟨[.MaxF ⟨.Float64, some (.Float64 7)⟩]⟩)]

/-- The composite keys occurring in `batchesWit`, in row order. -/
def keysWit : List (List GroupByScalar) := [[.Int32 5], [.Int32 6]]

end Execution

instance : Std.Antisymm (fun (a b : Rat) => a ≤ b) :=
  ⟨fun h1 h2 => le_antisymm h1 h2⟩

/-! Helper lemmas shared by the claim theorems. -/

/-- Computation rule for `Except` bind on a success value. -/
theorem except_ok_bind {ε α β : Type} (a : α) (f : α → Except ε β) :
    (Except.ok a >>= f : Except ε β) = f a := rfl

/-- Computation rule for `Except` pure. -/
theorem except_pure {ε α : Type} (a : α) : (pure a : Except ε α) = Except.ok a := rfl

/-- Folding `min` distributes over a seeded start. -/
theorem foldl_min_comm (a b : Rat) (l : List Rat) :
    l.foldl min (min a b) = min a (l.foldl min b) := by
  induction l generalizing b with
  | nil => rfl
  | cons x xs ih =>
    show xs.foldl min (min (min a b) x) = min a (xs.foldl min (min b x))
    rw [min_assoc]
    exact ih (min b x)

/-- Folding `max` distributes over a seeded start. -/
theorem foldl_max_comm (a b : Rat) (l : List Rat) :
    l.foldl max (max a b) = max a (l.foldl max b) := by
  induction l generalizing b with
  | nil => rfl
  | cons x xs ih =>
    show xs.foldl max (max (max a b) x) = max a (xs.foldl max (max b x))
    rw [max_assoc]
    exact ih (max b x)

/-- The optional minimum of a concatenation merges the two sides. -/
theorem min?_append (l1 l2 : List Rat) :
    (l1 ++ l2).min? = Execution.optMin l1.min? l2.min? := by
  cases l1 with
  | nil => cases l2 <;> rfl
  | cons x xs =>
    cases l2 with
    | nil => simp [Execution.optMin]
    | cons y ys =>
      show some ((xs ++ y :: ys).foldl min x) = some (min (xs.foldl min x) (ys.foldl min y))
      rw [List.foldl_append]
      show some (ys.foldl min (min (xs.foldl min x) y)) = _
      rw [foldl_min_comm]

/-- The optional maximum of a concatenation merges the two sides. -/
theorem max?_append (l1 l2 : List Rat) :
    (l1 ++ l2).max? = Execution.optMax l1.max? l2.max? := by
  cases l1 with
  | nil => cases l2 <;> rfl
  | cons x xs =>
    cases l2 with
    | nil => simp [Execution.optMax]
    | cons y ys =>
      show some ((xs ++ y :: ys).foldl max x) = some (max (xs.foldl max x) (ys.foldl max y))
      rw [List.foldl_append]
      show some (ys.foldl max (max (xs.foldl max x) y)) = _
      rw [foldl_max_comm]

/-- `optMin` is associative. -/
theorem optMin_assoc (a b c : Option Rat) :
    Execution.optMin (Execution.optMin a b) c = Execution.optMin a (Execution.optMin b c) := by
  cases a <;> cases b <;> cases c <;> simp [Execution.optMin, min_assoc]

/-- `optMax` is associative. -/
theorem optMax_assoc (a b c : Option Rat) :
    Execution.optMax (Execution.optMax a b) c = Execution.optMax a (Execution.optMax b c) := by
  cases a <;> cases b <;> cases c <;> simp [Execution.optMax, max_assoc]

/-- One batch of the ungrouped MIN pipeline folds the batch's reduction
into the running state exactly as `optMin` merges the two. -/
theorem processAggrBatch_min (st : Option Rat) (v : List Rat) :
    Execution.processAggrBatch [Execution.minF64Expr]
        ⟨[.MinF ⟨.Float64, st.map .Float64⟩]⟩ (Execution.mkF64Batch v) =
      .ok ⟨[.MinF ⟨.Float64, (Execution.optMin st v.min?).map .Float64⟩]⟩ := by
  cases st <;> cases hv : v.min? <;>
    simp [Execution.processAggrBatch, Execution.minF64Expr, Execution.col0,
      Execution.mkF64Batch, Execution.array_min, hv, Execution.liftPanic,
      Execution.AccumulatorSet.accumulate_scalar, Execution.AggFunction.accumulate_scalar,
      Execution.MinFunction.accumulate_scalar, Execution.optMin, List.enum, List.enumFrom,
      except_ok_bind]

/-- One batch of the ungrouped MAX pipeline folds the batch's reduction
into the running state exactly as `optMax` merges the two. -/
theorem processAggrBatch_max (st : Option Rat) (v : List Rat) :
    Execution.processAggrBatch [Execution.maxF64Expr]
        ⟨[.MaxF ⟨.Float64, st.map .Float64⟩]⟩ (Execution.mkF64Batch v) =
      .ok ⟨[.MaxF ⟨.Float64, (Execution.optMax st v.max?).map .Float64⟩]⟩ := by
  cases st <;> cases hv : v.max? <;>
    simp [Execution.processAggrBatch, Execution.maxF64Expr, Execution.col0,
      Execution.mkF64Batch, Execution.array_max, hv, Execution.liftPanic,
      Execution.AccumulatorSet.accumulate_scalar, Execution.AggFunction.accumulate_scalar,
      Execution.MaxFunction.accumulate_scalar, Execution.optMax, List.enum, List.enumFrom,
      except_ok_bind]

/-- Draining all batches accumulates the minimum of the concatenation. -/
theorem fold_batches_min (st : Option Rat) (bss : List (List Rat)) :
    List.foldlM (fun acc batch => Execution.processAggrBatch [Execution.minF64Expr] acc batch)
        (⟨[.MinF ⟨.Float64, st.map .Float64⟩]⟩ : Execution.AccumulatorSet)
        (bss.map Execution.mkF64Batch) =
      .ok ⟨[.MinF ⟨.Float64, (Execution.optMin st bss.flatten.min?).map .Float64⟩]⟩ := by
  induction bss generalizing st with
  | nil =>
    cases st <;> simp [Execution.optMin, except_pure]
  | cons v vs ih =>
    rw [List.map_cons, List.foldlM_cons, processAggrBatch_min st v, except_ok_bind, ih]
    rw [List.flatten_cons, min?_append, optMin_assoc]

/-- Draining all batches accumulates the maximum of the concatenation. -/
theorem fold_batches_max (st : Option Rat) (bss : List (List Rat)) :
    List.foldlM (fun acc batch => Execution.processAggrBatch [Execution.maxF64Expr] acc batch)
        (⟨[.MaxF ⟨.Float64, st.map .Float64⟩]⟩ : Execution.AccumulatorSet)
        (bss.map Execution.mkF64Batch) =
      .ok ⟨[.MaxF ⟨.Float64, (Execution.optMax st bss.flatten.max?).map .Float64⟩]⟩ := by
  induction bss generalizing st with
  | nil =>
    cases st <;> simp [Execution.optMax, except_pure]
  | cons v vs ih =>
    rw [List.map_cons, List.foldlM_cons, processAggrBatch_max st v, except_ok_bind, ih]
    rw [List.flatten_cons, max?_append, optMax_assoc]

/-- The full ungrouped MIN pipeline yields one `Float64` column holding
the optional minimum of the concatenated input. -/
theorem c1_min_part (sch : Arrow.Schema) (bss : List (List Rat)) :
    Execution.without_group_by sch [Execution.minF64Expr] (bss.map Execution.mkF64Batch) =
      .ok (some ⟨sch, [.Float64Array [bss.flatten.min?]]⟩) := by
  have hfold := fold_batches_min none bss
  rw [show Option.map Execution.ScalarValue.Float64 none = none from rfl] at hfold
  unfold Execution.without_group_by
  rw [show Execution.liftPanic (Execution.create_accumulators [Execution.minF64Expr])
      "create_accumulators panicked" =
      Except.ok ⟨[.MinF ⟨.Float64, none⟩]⟩ from rfl, except_ok_bind]
  rw [show Execution.optMin none bss.flatten.min? = bss.flatten.min? by
    cases bss.flatten.min? <;> rfl] at hfold
  rw [hfold, except_ok_bind]
  cases hm : bss.flatten.min? <;>
    simp [hm, Execution.finishColumn, Execution.AggFunction.data_type,
      Execution.AggFunction.result, Execution.MinFunction.result, except_ok_bind, except_pure,
      List.mapM, List.mapM.loop]

/-- The full ungrouped MAX pipeline yields one `Float64` column holding
the optional maximum of the concatenated input. -/
theorem c1_max_part (sch : Arrow.Schema) (bss : List (List Rat)) :
    Execution.without_group_by sch [Execution.maxF64Expr] (bss.map Execution.mkF64Batch) =
      .ok (some ⟨sch, [.Float64Array [bss.flatten.max?]]⟩) := by
  have hfold := fold_batches_max none bss
  rw [show Option.map Execution.ScalarValue.Float64 none = none from rfl] at hfold
  unfold Execution.without_group_by
  rw [show Execution.liftPanic (Execution.create_accumulators [Execution.maxF64Expr])
      "create_accumulators panicked" =
      Except.ok ⟨[.MaxF ⟨.Float64, none⟩]⟩ from rfl, except_ok_bind]
  rw [show Execution.optMax none bss.flatten.max? = bss.flatten.max? by
    cases bss.flatten.max? <;> rfl] at hfold
  rw [hfold, except_ok_bind]
  cases hm : bss.flatten.max? <;>
    simp [hm, Execution.finishColumn, Execution.AggFunction.data_type,
      Execution.AggFunction.result, Execution.MaxFunction.result, except_ok_bind, except_pure,
      List.mapM, List.mapM.loop]

/-- Characterization of `find?` over `enumFrom`: a hit yields the field
at the offset position, whose name matches, with no earlier match. -/
theorem column_aux (cols : List Arrow.Field) (k : Nat) (n : String) (i : Nat) (f : Arrow.Field) :
    (List.enumFrom k cols).find? (fun c => c.2.name == n) = some (i, f) →
      cols.get? (i - k) = some f ∧ k ≤ i ∧ f.name = n ∧
      ∀ j g, j < i - k → cols.get? j = some g → g.name ≠ n := by
  induction cols generalizing k with
  | nil => intro h; simp [List.enumFrom] at h
  | cons x xs ih =>
    intro h
    rw [List.enumFrom_cons, List.find?_cons] at h
    by_cases hx : x.name == n
    · simp only [hx] at h
      obtain ⟨hi, hf⟩ : k = i ∧ x = f := by
        have := h
        simp at this
        exact ⟨this.1, this.2⟩
      subst hi; subst hf
      refine ⟨by simp, le_refl _, eq_of_beq hx, ?_⟩
      intro j g hj
      exact absurd hj (by omega)
    · simp only [Bool.not_eq_true] at hx
      simp only [hx] at h
      have hih := ih (k + 1) h
      obtain ⟨hget, hle, hname, hprev⟩ := hih
      have hki : k < i := by omega
      have hsub : i - k = (i - (k + 1)) + 1 := by omega
      refine ⟨?_, by omega, hname, ?_⟩
      · rw [hsub]; simpa using hget
      · intro j g hj hg
        cases j with
        | zero =>
          simp at hg
          subst hg
          intro hc
          rw [hc] at hx
          simp at hx
        | succ j2 =>
          apply hprev j2 g (by omega)
          simpa using hg

/-- A field with the requested name guarantees the `enumFrom` search
succeeds. -/
theorem column_exists_aux (cols : List Arrow.Field) (k : Nat) (n : String) :
    (∃ f ∈ cols, f.name = n) →
      ((List.enumFrom k cols).find? (fun c => c.2.name == n)).isSome := by
  induction cols generalizing k with
  | nil => intro ⟨f, hmem, _⟩; exact absurd hmem (List.not_mem_nil f)
  | cons x xs ih =>
    intro ⟨f, hmem, hname⟩
    rw [List.enumFrom_cons, List.find?_cons]
    by_cases hx : x.name == n
    · simp [hx]
    · simp only [Bool.not_eq_true] at hx
      simp only [hx]
      apply ih (k + 1)
      rcases List.mem_cons.mp hmem with hfx | hfxs
      · subst hfx
        rw [hname] at hx
        simp at hx
      · exact ⟨f, hfxs, hname⟩

/-- Filtering with an all-true predicate of matching length keeps every
element. -/
theorem filterVec_replicate_true {α : Type} (v : List α) :
    Arrow.filterVec v (List.replicate v.length true) = v := by
  induction v with
  | nil => rfl
  | cons x xs ih => simpa [Arrow.filterVec, List.replicate] using ih

/-- Filtering with an all-false predicate keeps nothing. -/
theorem filterVec_replicate_false {α : Type} (v : List α) (n : Nat) :
    Arrow.filterVec v (List.replicate n false) = [] := by
  induction v generalizing n with
  | nil => simp [Arrow.filterVec]
  | cons x xs ih =>
    cases n with
    | zero => simp [Arrow.filterVec]
    | succ m => simpa [Arrow.filterVec, List.replicate] using ih m

/-- The filtered length is the number of true predicate entries within
the zip-truncated prefix. -/
theorem filterVec_length {α : Type} (v : List α) (b : List Bool) :
    (Arrow.filterVec v b).length = (b.take v.length).count true := by
  induction v generalizing b with
  | nil => simp [Arrow.filterVec]
  | cons x xs ih =>
    cases b with
    | nil => simp [Arrow.filterVec]
    | cons y ys =>
      cases y <;> simp [Arrow.filterVec, List.count_cons] <;>
        simpa [Arrow.filterVec] using ih ys

/-- A lifted panicking computation succeeds exactly when it did not panic. -/
theorem liftPanic_ok_iff {α : Type} (o : Option α) (msg : String) (a : α) :
    Execution.liftPanic o msg = .ok a ↔ o = some a := by
  cases o <;> simp [Execution.liftPanic]

/-- Computation rule for `Except` bind on an error value. -/
theorem except_error_bind {ε α β : Type} (e : ε) (f : α → Except ε β) :
    (Except.error e >>= f : Except ε β) = Except.error e := rfl

/-- Inversion of a successful `Except` bind. -/
theorem except_bind_ok_inv {ε α β : Type} {e : Except ε α} {f : α → Except ε β} {b : β}
    (h : (e >>= f) = .ok b) : ∃ a, e = .ok a ∧ f a = .ok b := by
  cases e with
  | error err => rw [except_error_bind] at h; exact absurd h (by simp)
  | ok a => exact ⟨a, rfl, h⟩

/-- A key is found in the group map exactly when it is among the map's keys. -/
theorem mapGet_isSome_iff (m : Execution.GroupMap) (k : List Execution.GroupByScalar) :
    (Execution.mapGet m k).isSome ↔ k ∈ m.map Prod.fst := by
  induction m with
  | nil => simp [Execution.mapGet]
  | cons p ps ih =>
    by_cases hp : p.1 = k
    · simp [Execution.mapGet, List.find?_cons, hp]
    · simp only [Execution.mapGet, List.find?_cons] at *
      simp [hp, ih, Execution.mapGet]
      intro hk
      exact absurd hk.symm hp

/-- Writing back an accumulator set does not change the key list. -/
theorem mapUpdate_keys (m : Execution.GroupMap) (k : List Execution.GroupByScalar)
    (v : Execution.AccumulatorSet) :
    (Execution.mapUpdate m k v).map Prod.fst = m.map Prod.fst := by
  induction m with
  | nil => rfl
  | cons p ps ih =>
    by_cases hp : p.1 = k <;> simp [Execution.mapUpdate, hp] <;>
      simpa [Execution.mapUpdate] using ih

/-- One grouped row either leaves the key list unchanged (key present) or
appends the row's key (key absent). -/
theorem processRow_keys {aes : List Execution.RuntimeExpr} {batch : Execution.RecordBatch}
    {gbk : List Execution.ArrayRef} {m m2 : Execution.GroupMap} {row : Nat}
    (h : Execution.processRow aes batch gbk m row = some m2) :
    ∃ k, Execution.rowKey gbk row = some k ∧
      ((k ∈ m.map Prod.fst ∧ m2.map Prod.fst = m.map Prod.fst) ∨
       (k ∉ m.map Prod.fst ∧ m2.map Prod.fst = m.map Prod.fst ++ [k])) := by
  unfold Execution.processRow at h
  simp only [Option.bind_eq_bind, Option.bind_eq_some] at h
  obtain ⟨k, hk, h⟩ := h
  refine ⟨k, hk, ?_⟩
  cases hget : Execution.mapGet m k with
  | some accset =>
    rw [hget] at h
    simp only [Option.bind_eq_bind, Option.bind_eq_some] at h
    obtain ⟨upd, hupd, h⟩ := h
    left
    have hmem : k ∈ m.map Prod.fst := (mapGet_isSome_iff m k).mp (by simp [hget])
    simp at h
    exact ⟨hmem, by rw [← h]; exact mapUpdate_keys m k upd⟩
  | none =>
    rw [hget] at h
    simp only [Option.bind_eq_bind, Option.bind_eq_some] at h
    obtain ⟨acc0, hacc0, upd, hupd, h⟩ := h
    right
    have hmem : k ∉ m.map Prod.fst := by
      intro hc
      have := (mapGet_isSome_iff m k).mpr hc
      rw [hget] at this
      simp at this
    simp at h
    exact ⟨hmem, by rw [← h]; simp⟩

/-- Membership in the collected keys of a row range. -/
theorem collectKeys_mem_iff (gbk : List Execution.ArrayRef) :
    ∀ (rows : List Nat) (out : List (List Execution.GroupByScalar)),
      Execution.collectKeys gbk rows = some out →
      ∀ k, k ∈ out ↔ ∃ r ∈ rows, Execution.rowKey gbk r = some k := by
  intro rows
  induction rows with
  | nil =>
    intro out h k
    have hout : out = [] := by
      have h2 : some ([] : List (List Execution.GroupByScalar)) = some out := h
      exact ((Option.some.injEq _ _).mp h2).symm
    subst hout
    simp
  | cons r rs ih =>
    intro out h k
    unfold Execution.collectKeys at h
    simp only [Option.bind_eq_bind, Option.bind_eq_some] at h
    obtain ⟨v, hv, vs, hvs, hout⟩ := h
    rw [show (pure (v :: vs) : Option (List (List Execution.GroupByScalar))) = some (v :: vs)
      from rfl] at hout
    have hout2 := (Option.some.injEq _ _).mp hout
    subst hout2
    simp only [List.mem_cons]
    constructor
    · rintro (hkv | hkvs)
      · exact ⟨r, by simp, by rw [hv, hkv]⟩
      · obtain ⟨r2, hr2, hf⟩ := (ih vs hvs k).mp hkvs
        exact ⟨r2, by simp [hr2], hf⟩
    · rintro ⟨r2, hr2, hf⟩
      rcases hr2 with h1 | h2
      · subst h1
        rw [hv] at hf
        left
        exact ((Option.some.injEq _ _).mp hf).symm
      · right
        exact (ih vs hvs k).mpr ⟨r2, h2, hf⟩

/-- The row loop of the grouped path preserves key distinctness and leaves
exactly the initial keys plus the processed rows' keys. -/
theorem rowsFold_keys {aes : List Execution.RuntimeExpr} {batch : Execution.RecordBatch}
    {gbk : List Execution.ArrayRef} :
    ∀ (rows : List Nat) (m m2 : Execution.GroupMap),
      rows.foldlM (fun mm row => Execution.processRow aes batch gbk mm row) m = some m2 →
      (m.map Prod.fst).Nodup →
      (m2.map Prod.fst).Nodup ∧
      ∀ k, k ∈ m2.map Prod.fst ↔
        (k ∈ m.map Prod.fst ∨ ∃ row ∈ rows, Execution.rowKey gbk row = some k) := by
  intro rows
  induction rows with
  | nil =>
    intro m m2 h hnd
    simp at h
    subst h
    simp [hnd]
  | cons r rs ih =>
    intro m m2 h hnd
    rw [List.foldlM_cons] at h
    simp only [Option.bind_eq_bind, Option.bind_eq_some] at h
    obtain ⟨m1, hm1, hrest⟩ := h
    obtain ⟨k0, hk0, hcase⟩ := processRow_keys hm1
    rcases hcase with ⟨hmem, hkeys⟩ | ⟨hmem, hkeys⟩
    · have hnd1 : (m1.map Prod.fst).Nodup := by rw [hkeys]; exact hnd
      obtain ⟨hnd2, hiff⟩ := ih m1 m2 hrest hnd1
      refine ⟨hnd2, fun k => ?_⟩
      rw [hiff k, hkeys]
      constructor
      · rintro (hk | ⟨row, hrow, hf⟩)
        · exact Or.inl hk
        · exact Or.inr ⟨row, by simp [hrow], hf⟩
      · rintro (hk | ⟨row, hrow, hf⟩)
        · exact Or.inl hk
        · rcases List.mem_cons.mp hrow with h1 | h2
          · subst h1
            rw [hk0] at hf
            rw [← (Option.some.injEq _ _).mp hf]
            exact Or.inl hmem
          · exact Or.inr ⟨row, h2, hf⟩
    · have hnd1 : (m1.map Prod.fst).Nodup := by
        rw [hkeys, List.nodup_append]
        exact ⟨hnd, List.nodup_singleton _, by
          intro a ha hb
          rw [List.mem_singleton] at hb
          subst hb
          exact hmem ha⟩
      obtain ⟨hnd2, hiff⟩ := ih m1 m2 hrest hnd1
      refine ⟨hnd2, fun k => ?_⟩
      rw [hiff k, hkeys]
      simp only [List.mem_append, List.mem_singleton]
      constructor
      · rintro ((hk | hk) | ⟨row, hrow, hf⟩)
        · exact Or.inl hk
        · subst hk
          exact Or.inr ⟨r, by simp, hk0⟩
        · exact Or.inr ⟨row, by simp [hrow], hf⟩
      · rintro (hk | ⟨row, hrow, hf⟩)
        · exact Or.inl (Or.inl hk)
        · rcases List.mem_cons.mp hrow with h1 | h2
          · subst h1
            rw [hk0] at hf
            exact Or.inl (Or.inr ((Option.some.injEq _ _).mp hf).symm)
          · exact Or.inr ⟨row, h2, hf⟩

/-- One grouped batch preserves key distinctness and adds exactly the
batch's keys. -/
theorem processGroupBatch_keys {ges aes : List Execution.RuntimeExpr}
    {m : Execution.GroupMap} {batch : Execution.RecordBatch} {m2 : Execution.GroupMap}
    {bk : List (List Execution.GroupByScalar)}
    (h : Execution.processGroupBatch ges aes m batch = .ok m2)
    (hbk : Execution.batchKeys ges batch = .ok bk)
    (hnd : (m.map Prod.fst).Nodup) :
    (m2.map Prod.fst).Nodup ∧
    ∀ k, k ∈ m2.map Prod.fst ↔ (k ∈ m.map Prod.fst ∨ k ∈ bk) := by
  unfold Execution.processGroupBatch at h
  obtain ⟨gbk, hgbk, h2⟩ := except_bind_ok_inv h
  unfold Execution.batchKeys at hbk
  obtain ⟨gbk2, hgbk2, hbk2⟩ := except_bind_ok_inv hbk
  have hg : gbk2 = gbk := by
    rw [hgbk] at hgbk2
    exact (Except.ok.injEq _ _).mp hgbk2.symm
  subst hg
  rw [liftPanic_ok_iff] at h2 hbk2
  obtain ⟨hnd2, hiff⟩ := rowsFold_keys (List.range batch.num_rows) m m2 h2 hnd
  refine ⟨hnd2, fun k => ?_⟩
  rw [hiff k]
  have hmem := collectKeys_mem_iff gbk2 (List.range batch.num_rows) bk hbk2 k
  rw [← hmem]

/-- The batch loop of the grouped path preserves key distinctness and
leaves exactly the initial keys plus the input's keys. -/
theorem buildMapFrom_keys {ges aes : List Execution.RuntimeExpr} :
    ∀ (bs : List Execution.RecordBatch) (m0 m : Execution.GroupMap)
      (ks : List (List Execution.GroupByScalar)),
      bs.foldlM (fun mm b => Execution.processGroupBatch ges aes mm b) m0 = .ok m →
      Execution.inputKeys ges bs = .ok ks →
      (m0.map Prod.fst).Nodup →
      (m.map Prod.fst).Nodup ∧
      ∀ k, k ∈ m.map Prod.fst ↔ (k ∈ m0.map Prod.fst ∨ k ∈ ks) := by
  intro bs
  induction bs with
  | nil =>
    intro m0 m ks h hk hnd
    have hm : m = m0 := by
      rw [List.foldlM_nil] at h
      exact ((Except.ok.injEq _ _).mp h).symm
    have hks : ks = [] := by
      unfold Execution.inputKeys at hk
      exact ((Except.ok.injEq _ _).mp hk).symm
    subst hm; subst hks
    exact ⟨hnd, fun k => by simp⟩
  | cons b bs2 ih =>
    intro m0 m ks h hk hnd
    rw [List.foldlM_cons] at h
    obtain ⟨m1, hm1, hrest⟩ := except_bind_ok_inv h
    unfold Execution.inputKeys at hk
    obtain ⟨bk, hbk, hk2⟩ := except_bind_ok_inv hk
    obtain ⟨rest, hrestk, hk3⟩ := except_bind_ok_inv hk2
    have hks : ks = bk ++ rest := by
      rw [except_pure] at hk3
      exact ((Except.ok.injEq _ _).mp hk3).symm
    subst hks
    obtain ⟨hnd1, hiff1⟩ := processGroupBatch_keys hm1 hbk hnd
    obtain ⟨hnd2, hiff2⟩ := ih m1 m rest hrest hrestk hnd1
    refine ⟨hnd2, fun k => ?_⟩
    rw [hiff2 k, hiff1 k, List.mem_append]
    tauto

/-! Claim theorems. -/

/-- C9: `Schema::column(name)` returns the first (index, Field) pair, in
column order, whose field name equals the given name, even when several
fields share that name (no earlier column has the name, and a column
with the name guarantees a hit); on the schema
`[name:Utf8, lat:Float64, lng:Float64]`, `column("lat")` returns index 1
with the field named "lat" of type Float64, nullable false. -/
theorem c9_schema_column_first_match :
    (∀ (s : Arrow.Schema) (n : String) (i : Nat) (f : Arrow.Field),
      s.column n = some (i, f) →
        s.columns.get? i = some f ∧ f.name = n ∧
        ∀ j g, j < i → s.columns.get? j = some g → g.name ≠ n) ∧
    (∀ (s : Arrow.Schema) (n : String),
      (∃ f ∈ s.columns, f.name = n) → (s.column n).isSome) ∧
    Arrow.ukSchema.column "lat" =
      some (1, Arrow.Field.mk "lat" Arrow.DataType.Float64 false) := by
  refine ⟨?_, ?_, rfl⟩
  · intro s n i f h
    have := column_aux s.columns 0 n i f (by simpa [Arrow.Schema.column, List.enum] using h)
    obtain ⟨h1, _, h3, h4⟩ := this
    rw [Nat.sub_zero] at h1 h4
    exact ⟨h1, h3, h4⟩
  · intro s n h
    unfold Arrow.Schema.column
    exact column_exists_aux s.columns 0 n h

/-- Witness for C9: the first-match property instantiated on the
reference schema at name "lat", discharging the lookup hypothesis by
computation. -/
theorem c9_witness :
    Arrow.ukSchema.columns.get? 1 =
        some (Arrow.Field.mk "lat" Arrow.DataType.Float64 false) ∧
      (Arrow.Field.mk "lat" Arrow.DataType.Float64 false).name = "lat" ∧
      ∀ j g, j < 1 → Arrow.ukSchema.columns.get? j = some g → g.name ≠ "lat" :=
  c9_schema_column_first_match.1 Arrow.ukSchema "lat" 1
    (Arrow.Field.mk "lat" Arrow.DataType.Float64 false) rfl

/-- C10: `Array::len` on a `Struct` reads the first child unconditionally:
with at least one child it equals the first child's `len()`, and with an
empty child list the access is out of bounds (fatal, modelled `none`). -/
theorem c10_struct_len_partial :
    (∀ (c : Arrow.Array) (cs : List Arrow.Array),
      (Arrow.Array.Struct (c :: cs)).len = c.len) ∧
    (Arrow.Array.Struct []).len = none :=
  ⟨fun _ _ => rfl, rfl⟩

/-- C7: for `MinFunction` and `MaxFunction`, `accumulate_scalar(None)`
leaves the state unchanged; on an empty state, `accumulate_scalar(Some v)`
seeds the state with `v`; on a state holding a value of the same scalar
kind as the incoming value, the new state is the pairwise min
(respectively max); and `result()` returns exactly the optional running
value. -/
theorem c7_min_max_accumulate :
    (∀ s : Execution.MinFunction, s.accumulate_scalar none = some s) ∧
    (∀ s : Execution.MaxFunction, s.accumulate_scalar none = some s) ∧
    (∀ (d : Arrow.DataType) (v : Execution.ScalarValue),
      (Execution.MinFunction.mk d none).accumulate_scalar (some v) =
        some (Execution.MinFunction.mk d (some v))) ∧
    (∀ (d : Arrow.DataType) (v : Execution.ScalarValue),
      (Execution.MaxFunction.mk d none).accumulate_scalar (some v) =
        some (Execution.MaxFunction.mk d (some v))) ∧
    (∀ (d : Arrow.DataType) (a b : Nat),
      (Execution.MinFunction.mk d (some (.UInt8 a))).accumulate_scalar (some (.UInt8 b)) =
          some (Execution.MinFunction.mk d (some (.UInt8 (min a b)))) ∧
      (Execution.MinFunction.mk d (some (.UInt16 a))).accumulate_scalar (some (.UInt16 b)) =
          some (Execution.MinFunction.mk d (some (.UInt16 (min a b)))) ∧
      (Execution.MinFunction.mk d (some (.UInt32 a))).accumulate_scalar (some (.UInt32 b)) =
          some (Execution.MinFunction.mk d (some (.UInt32 (min a b)))) ∧
      (Execution.MinFunction.mk d (some (.UInt64 a))).accumulate_scalar (some (.UInt64 b)) =
          some (Execution.MinFunction.mk d (some (.UInt64 (min a b))))) ∧
    (∀ (d : Arrow.DataType) (a b : Int),
      (Execution.MinFunction.mk d (some (.Int8 a))).accumulate_scalar (some (.Int8 b)) =
          some (Execution.MinFunction.mk d (some (.Int8 (min a b)))) ∧
      (Execution.MinFunction.mk d (some (.Int16 a))).accumulate_scalar (some (.Int16 b)) =
          some (Execution.MinFunction.mk d (some (.Int16 (min a b)))) ∧
      (Execution.MinFunction.mk d (some (.Int32 a))).accumulate_scalar (some (.Int32 b)) =
          some (Execution.MinFunction.mk d (some (.Int32 (min a b)))) ∧
      (Execution.MinFunction.mk d (some (.Int64 a))).accumulate_scalar (some (.Int64 b)) =
          some (Execution.MinFunction.mk d (some (.Int64 (min a b))))) ∧
    (∀ (d : Arrow.DataType) (a b : Rat),
      (Execution.MinFunction.mk d (some (.Float32 a))).accumulate_scalar (some (.Float32 b)) =
          some (Execution.MinFunction.mk d (some (.Float32 (min a b)))) ∧
      (Execution.MinFunction.mk d (some (.Float64 a))).accumulate_scalar (some (.Float64 b)) =
          some (Execution.MinFunction.mk d (some (.Float64 (min a b))))) ∧
    (∀ (d : Arrow.DataType) (a b : Nat),
      (Execution.MaxFunction.mk d (some (.UInt8 a))).accumulate_scalar (some (.UInt8 b)) =
          some (Execution.MaxFunction.mk d (some (.UInt8 (max a b)))) ∧
      (Execution.MaxFunction.mk d (some (.UInt16 a))).accumulate_scalar (some (.UInt16 b)) =
          some (Execution.MaxFunction.mk d (some (.UInt16 (max a b)))) ∧
      (Execution.MaxFunction.mk d (some (.UInt32 a))).accumulate_scalar (some (.UInt32 b)) =
          some (Execution.MaxFunction.mk d (some (.UInt32 (max a b)))) ∧
      (Execution.MaxFunction.mk d (some (.UInt64 a))).accumulate_scalar (some (.UInt64 b)) =
          some (Execution.MaxFunction.mk d (some (.UInt64 (max a b))))) ∧
    (∀ (d : Arrow.DataType) (a b : Int),
      (Execution.MaxFunction.mk d (some (.Int8 a))).accumulate_scalar (some (.Int8 b)) =
          some (Execution.MaxFunction.mk d (some (.Int8 (max a b)))) ∧
      (Execution.MaxFunction.mk d (some (.Int16 a))).accumulate_scalar (some (.Int16 b)) =
          some (Execution.MaxFunction.mk d (some (.Int16 (max a b)))) ∧
      (Execution.MaxFunction.mk d (some (.Int32 a))).accumulate_scalar (some (.Int32 b)) =
          some (Execution.MaxFunction.mk d (some (.Int32 (max a b)))) ∧
      (Execution.MaxFunction.mk d (some (.Int64 a))).accumulate_scalar (some (.Int64 b)) =
          some (Execution.MaxFunction.mk d (some (.Int64 (max a b))))) ∧
    (∀ (d : Arrow.DataType) (a b : Rat),
      (Execution.MaxFunction.mk d (some (.Float32 a))).accumulate_scalar (some (.Float32 b)) =
          some (Execution.MaxFunction.mk d (some (.Float32 (max a b)))) ∧
      (Execution.MaxFunction.mk d (some (.Float64 a))).accumulate_scalar (some (.Float64 b)) =
          some (Execution.MaxFunction.mk d (some (.Float64 (max a b))))) ∧
    (∀ s : Execution.MinFunction, s.result = s.value) ∧
    (∀ s : Execution.MaxFunction, s.result = s.value) := by
  refine ⟨?_, ?_, fun d v => rfl, fun d v => rfl,
    fun d a b => ⟨rfl, rfl, rfl, rfl⟩, fun d a b => ⟨rfl, rfl, rfl, rfl⟩,
    fun d a b => ⟨rfl, rfl⟩,
    fun d a b => ⟨rfl, rfl, rfl, rfl⟩, fun d a b => ⟨rfl, rfl, rfl, rfl⟩,
    fun d a b => ⟨rfl, rfl⟩,
    fun s => rfl, fun s => rfl⟩
  · intro s
    cases s with
    | mk d v =>
      cases v with
      | none => rfl
      | some sv => cases sv <;> rfl
  · intro s
    cases s with
    | mk d v =>
      cases v with
      | none => rfl
      | some sv => cases sv <;> rfl

/-- C4: in the ungrouped output construction, an aggregate whose declared
output type is `Int32` produces a zero-element column regardless of the
accumulated value, while one with declared `Float64` output produces a
one-element column holding the accumulated scalar, or a null entry when
nothing was accumulated. -/
theorem c4_ungrouped_result_columns :
    (∀ v : Option Execution.ScalarValue,
      Execution.finishColumn (.MinF ⟨Arrow.DataType.Int32, v⟩) =
          .ok (.Int32Array []) ∧
      Execution.finishColumn (.MaxF ⟨Arrow.DataType.Int32, v⟩) =
          .ok (.Int32Array [])) ∧
    (∀ x : Rat,
      Execution.finishColumn (.MinF ⟨Arrow.DataType.Float64, some (.Float64 x)⟩) =
          .ok (.Float64Array [some x]) ∧
      Execution.finishColumn (.MaxF ⟨Arrow.DataType.Float64, some (.Float64 x)⟩) =
          .ok (.Float64Array [some x])) ∧
    Execution.finishColumn (.MinF ⟨Arrow.DataType.Float64, none⟩) =
        .ok (.Float64Array [none]) ∧
    Execution.finishColumn (.MaxF ⟨Arrow.DataType.Float64, none⟩) =
        .ok (.Float64Array [none]) :=
  ⟨fun _ => ⟨rfl, rfl⟩, fun _ => ⟨rfl, rfl⟩, rfl, rfl⟩


/-- C5 (amended): for every pair of Arrays of the same typed variant
among Float32, Float64, Int32, Int64 and Utf8, each of `eq`, `not_eq`,
`lt`, `lt_eq`, `gt`, `gt_eq` returns the zip-pairwise comparison of the
two sequences (hence with length equal to the shorter operand's length);
the supported operand shapes are exactly those five same-variant column
pairs plus the five column-vs-matching-kind `BroadcastVariable` shapes,
and every other combination — including `Boolean` vs `Boolean` — is a
fatal type-mismatch failure. -/
theorem c5_amended_comparisons :
    ((∀ l r : List Rat,
      Arrow.Array.eq (.Float32 l) (.Float32 r) = some (List.zipWith (fun a b => a == b) l r)) ∧
    (∀ l r : List Rat,
      Arrow.Array.eq (.Float64 l) (.Float64 r) = some (List.zipWith (fun a b => a == b) l r)) ∧
    (∀ l r : List Int,
      Arrow.Array.eq (.Int32 l) (.Int32 r) = some (List.zipWith (fun a b => a == b) l r)) ∧
    (∀ l r : List Int,
      Arrow.Array.eq (.Int64 l) (.Int64 r) = some (List.zipWith (fun a b => a == b) l r)) ∧
    (∀ l r : List String,
      Arrow.Array.eq (.Utf8 l) (.Utf8 r) = some (List.zipWith (fun a b => a == b) l r)) ∧
    (∀ l r : List Rat,
      (Arrow.Array.eq (.Float64 l) (.Float64 r)).map List.length = some (min l.length r.length)) ∧
    (∀ a b : Arrow.Array, (Arrow.Array.eq a b).isSome = Arrow.comparisonSupported a b)) ∧
    ((∀ l r : List Rat,
      Arrow.Array.not_eq (.Float32 l) (.Float32 r) = some (List.zipWith (fun a b => a != b) l r)) ∧
    (∀ l r : List Rat,
      Arrow.Array.not_eq (.Float64 l) (.Float64 r) = some (List.zipWith (fun a b => a != b) l r)) ∧
    (∀ l r : List Int,
      Arrow.Array.not_eq (.Int32 l) (.Int32 r) = some (List.zipWith (fun a b => a != b) l r)) ∧
    (∀ l r : List Int,
      Arrow.Array.not_eq (.Int64 l) (.Int64 r) = some (List.zipWith (fun a b => a != b) l r)) ∧
    (∀ l r : List String,
      Arrow.Array.not_eq (.Utf8 l) (.Utf8 r) = some (List.zipWith (fun a b => a != b) l r)) ∧
    (∀ l r : List Rat,
      (Arrow.Array.not_eq (.Float64 l) (.Float64 r)).map List.length = some (min l.length r.length)) ∧
    (∀ a b : Arrow.Array, (Arrow.Array.not_eq a b).isSome = Arrow.comparisonSupported a b)) ∧
    ((∀ l r : List Rat,
      Arrow.Array.lt (.Float32 l) (.Float32 r) = some (List.zipWith (fun a b => decide (a < b)) l r)) ∧
    (∀ l r : List Rat,
      Arrow.Array.lt (.Float64 l) (.Float64 r) = some (List.zipWith (fun a b => decide (a < b)) l r)) ∧
    (∀ l r : List Int,
      Arrow.Array.lt (.Int32 l) (.Int32 r) = some (List.zipWith (fun a b => decide (a < b)) l r)) ∧
    (∀ l r : List Int,
      Arrow.Array.lt (.Int64 l) (.Int64 r) = some (List.zipWith (fun a b => decide (a < b)) l r)) ∧
    (∀ l r : List String,
      Arrow.Array.lt (.Utf8 l) (.Utf8 r) = some (List.zipWith (fun a b => decide (a < b)) l r)) ∧
    (∀ l r : List Rat,
      (Arrow.Array.lt (.Float64 l) (.Float64 r)).map List.length = some (min l.length r.length)) ∧
    (∀ a b : Arrow.Array, (Arrow.Array.lt a b).isSome = Arrow.comparisonSupported a b)) ∧
    ((∀ l r : List Rat,
      Arrow.Array.lt_eq (.Float32 l) (.Float32 r) = some (List.zipWith (fun a b => decide (a ≤ b)) l r)) ∧
    (∀ l r : List Rat,
      Arrow.Array.lt_eq (.Float64 l) (.Float64 r) = some (List.zipWith (fun a b => decide (a ≤ b)) l r)) ∧
    (∀ l r : List Int,
      Arrow.Array.lt_eq (.Int32 l) (.Int32 r) = some (List.zipWith (fun a b => decide (a ≤ b)) l r)) ∧
    (∀ l r : List Int,
      Arrow.Array.lt_eq (.Int64 l) (.Int64 r) = some (List.zipWith (fun a b => decide (a ≤ b)) l r)) ∧
    (∀ l r : List String,
      Arrow.Array.lt_eq (.Utf8 l) (.Utf8 r) = some (List.zipWith (fun a b => decide (a ≤ b)) l r)) ∧
    (∀ l r : List Rat,
      (Arrow.Array.lt_eq (.Float64 l) (.Float64 r)).map List.length = some (min l.length r.length)) ∧
    (∀ a b : Arrow.Array, (Arrow.Array.lt_eq a b).isSome = Arrow.comparisonSupported a b)) ∧
    ((∀ l r : List Rat,
      Arrow.Array.gt (.Float32 l) (.Float32 r) = some (List.zipWith (fun a b => decide (b < a)) l r)) ∧
    (∀ l r : List Rat,
      Arrow.Array.gt (.Float64 l) (.Float64 r) = some (List.zipWith (fun a b => decide (b < a)) l r)) ∧
    (∀ l r : List Int,
      Arrow.Array.gt (.Int32 l) (.Int32 r) = some (List.zipWith (fun a b => decide (b < a)) l r)) ∧
    (∀ l r : List Int,
      Arrow.Array.gt (.Int64 l) (.Int64 r) = some (List.zipWith (fun a b => decide (b < a)) l r)) ∧
    (∀ l r : List String,
      Arrow.Array.gt (.Utf8 l) (.Utf8 r) = some (List.zipWith (fun a b => decide (b < a)) l r)) ∧
    (∀ l r : List Rat,
      (Arrow.Array.gt (.Float64 l) (.Float64 r)).map List.length = some (min l.length r.length)) ∧
    (∀ a b : Arrow.Array, (Arrow.Array.gt a b).isSome = Arrow.comparisonSupported a b)) ∧
    ((∀ l r : List Rat,
      Arrow.Array.gt_eq (.Float32 l) (.Float32 r) = some (List.zipWith (fun a b => decide (b ≤ a)) l r)) ∧
    (∀ l r : List Rat,
      Arrow.Array.gt_eq (.Float64 l) (.Float64 r) = some (List.zipWith (fun a b => decide (b ≤ a)) l r)) ∧
    (∀ l r : List Int,
      Arrow.Array.gt_eq (.Int32 l) (.Int32 r) = some (List.zipWith (fun a b => decide (b ≤ a)) l r)) ∧
    (∀ l r : List Int,
      Arrow.Array.gt_eq (.Int64 l) (.Int64 r) = some (List.zipWith (fun a b => decide (b ≤ a)) l r)) ∧
    (∀ l r : List String,
      Arrow.Array.gt_eq (.Utf8 l) (.Utf8 r) = some (List.zipWith (fun a b => decide (b ≤ a)) l r)) ∧
    (∀ l r : List Rat,
      (Arrow.Array.gt_eq (.Float64 l) (.Float64 r)).map List.length = some (min l.length r.length)) ∧
    (∀ a b : Arrow.Array, (Arrow.Array.gt_eq a b).isSome = Arrow.comparisonSupported a b)) := by
  refine ⟨?_, ?_, ?_, ?_, ?_, ?_⟩
  · refine ⟨fun l r => rfl, fun l r => rfl, fun l r => rfl, fun l r => rfl, fun l r => rfl,
      fun l r => by simp [Arrow.Array.eq, List.length_zipWith], ?_⟩
    intro a b
    cases a <;> cases b <;>
      first
        | rfl
        | (rename_i v; cases v <;> rfl)
  · refine ⟨fun l r => rfl, fun l r => rfl, fun l r => rfl, fun l r => rfl, fun l r => rfl,
      fun l r => by simp [Arrow.Array.not_eq, List.length_zipWith], ?_⟩
    intro a b
    cases a <;> cases b <;>
      first
        | rfl
        | (rename_i v; cases v <;> rfl)
  · refine ⟨fun l r => rfl, fun l r => rfl, fun l r => rfl, fun l r => rfl, fun l r => rfl,
      fun l r => by simp [Arrow.Array.lt, List.length_zipWith], ?_⟩
    intro a b
    cases a <;> cases b <;>
      first
        | rfl
        | (rename_i v; cases v <;> rfl)
  · refine ⟨fun l r => rfl, fun l r => rfl, fun l r => rfl, fun l r => rfl, fun l r => rfl,
      fun l r => by simp [Arrow.Array.lt_eq, List.length_zipWith], ?_⟩
    intro a b
    cases a <;> cases b <;>
      first
        | rfl
        | (rename_i v; cases v <;> rfl)
  · refine ⟨fun l r => rfl, fun l r => rfl, fun l r => rfl, fun l r => rfl, fun l r => rfl,
      fun l r => by simp [Arrow.Array.gt, List.length_zipWith], ?_⟩
    intro a b
    cases a <;> cases b <;>
      first
        | rfl
        | (rename_i v; cases v <;> rfl)
  · refine ⟨fun l r => rfl, fun l r => rfl, fun l r => rfl, fun l r => rfl, fun l r => rfl,
      fun l r => by simp [Arrow.Array.gt_eq, List.length_zipWith], ?_⟩
    intro a b
    cases a <;> cases b <;>
      first
        | rfl
        | (rename_i v; cases v <;> rfl)

/-- Counterexample for C5: the claim includes `Boolean` among the
variants whose same-variant pairs are compared pairwise, but
`Array::eq` on two Boolean columns hits the fatal type-mismatch arm
instead of returning the pairwise comparison `[true]`. -/
theorem c5_counterexample :
    Arrow.Array.eq (Arrow.Array.Boolean [true]) (Arrow.Array.Boolean [true]) ≠ some [true] := by
  decide

/-- Counterexample for C6: the claim says a Struct compared with any
value in either argument order yields no ordering, but with the Struct
on the right and a `Float64` on the left `partial_cmp` hits the
`unimplemented!` coercion arm (a panic, modelled `none`), not Rust's
`None` (modelled `some none`). -/
theorem c6_counterexample :
    Arrow.Value.partial_cmp (Arrow.Value.Float64 1) (Arrow.Value.Struct []) ≠ some none := by
  decide

/-- C6 (amended): `partial_cmp` returns `Some(Less)` for `Float64(2.0)`
versus `Int64(3)`; a Struct as the left argument yields no ordering
against every right operand; a Struct as the right argument with a
non-Struct left argument is a fatal unimplemented-coercion failure. -/
theorem c6_amended_partial_ord :
    Arrow.Value.partial_cmp (Arrow.Value.Float64 2) (Arrow.Value.Int64 3) =
        some (some Ordering.lt) ∧
    (∀ (l : List Arrow.Value) (v : Arrow.Value),
      Arrow.Value.partial_cmp (Arrow.Value.Struct l) v = some none) ∧
    (∀ (l : List Arrow.Value) (x : Rat),
      Arrow.Value.partial_cmp (Arrow.Value.Float64 x) (Arrow.Value.Struct l) = none) ∧
    (∀ (l : List Arrow.Value) (x : Int),
      Arrow.Value.partial_cmp (Arrow.Value.Int64 x) (Arrow.Value.Struct l) = none) ∧
    (∀ (l : List Arrow.Value) (s : String),
      Arrow.Value.partial_cmp (Arrow.Value.Utf8 s) (Arrow.Value.Struct l) = none) ∧
    (∀ (l : List Arrow.Value) (b : Bool),
      Arrow.Value.partial_cmp (Arrow.Value.Boolean b) (Arrow.Value.Struct l) = none) ∧
    (∀ (l : List Arrow.Value) (x : Rat),
      Arrow.Value.partial_cmp (Arrow.Value.Float32 x) (Arrow.Value.Struct l) = none) ∧
    (∀ (l : List Arrow.Value) (x : Int),
      Arrow.Value.partial_cmp (Arrow.Value.Int32 x) (Arrow.Value.Struct l) = none) := by
  refine ⟨by decide, fun l v => rfl, fun l x => rfl, fun l x => rfl, fun l s => rfl,
    fun l b => rfl, fun l x => rfl, fun l x => rfl⟩

/-- Counterexample for C8: the claim says the filtered length equals the
count of true predicate entries for every predicate, but with a
one-element `Int32` array and the two-true predicate the result has
length 1, not 2 — zip truncates the predicate to the array's length. -/
theorem c8_counterexample :
    (Arrow.Array.filter (Arrow.Array.Int32 [0]) (Arrow.Array.Boolean [true, true])).bind
        Arrow.Array.len ≠ some (([true, true] : List Bool).count true) := by
  decide

/-- C8 (amended): for every supported variant, filtering with an
all-true predicate of the same length returns a value-equal copy;
filtering with an all-false predicate of any length returns an empty
same-variant result; and for every predicate the result's length equals
the number of true entries among the predicate's first `len(array)`
entries (zip truncation). -/
theorem c8_amended_filter :
    (∀ v : List Bool,
      Arrow.Array.filter (.Boolean v) (.Boolean (List.replicate v.length true)) =
        some (.Boolean v)) ∧
    (∀ v : List Rat,
      Arrow.Array.filter (.Float32 v) (.Boolean (List.replicate v.length true)) =
        some (.Float32 v)) ∧
    (∀ v : List Rat,
      Arrow.Array.filter (.Float64 v) (.Boolean (List.replicate v.length true)) =
        some (.Float64 v)) ∧
    (∀ v : List Int,
      Arrow.Array.filter (.Int32 v) (.Boolean (List.replicate v.length true)) =
        some (.Int32 v)) ∧
    (∀ v : List Int,
      Arrow.Array.filter (.Int64 v) (.Boolean (List.replicate v.length true)) =
        some (.Int64 v)) ∧
    (∀ v : List String,
      Arrow.Array.filter (.Utf8 v) (.Boolean (List.replicate v.length true)) =
        some (.Utf8 v)) ∧
    (∀ (v : List Bool) (n : Nat),
      Arrow.Array.filter (.Boolean v) (.Boolean (List.replicate n false)) =
        some (.Boolean [])) ∧
    (∀ (v : List Rat) (n : Nat),
      Arrow.Array.filter (.Float32 v) (.Boolean (List.replicate n false)) =
        some (.Float32 [])) ∧
    (∀ (v : List Rat) (n : Nat),
      Arrow.Array.filter (.Float64 v) (.Boolean (List.replicate n false)) =
        some (.Float64 [])) ∧
    (∀ (v : List Int) (n : Nat),
      Arrow.Array.filter (.Int32 v) (.Boolean (List.replicate n false)) =
        some (.Int32 [])) ∧
    (∀ (v : List Int) (n : Nat),
      Arrow.Array.filter (.Int64 v) (.Boolean (List.replicate n false)) =
        some (.Int64 [])) ∧
    (∀ (v : List String) (n : Nat),
      Arrow.Array.filter (.Utf8 v) (.Boolean (List.replicate n false)) =
        some (.Utf8 [])) ∧
    (∀ (v : List Bool) (b : List Bool),
      (Arrow.Array.filter (.Boolean v) (.Boolean b)).bind Arrow.Array.len =
        some ((b.take v.length).count true)) ∧
    (∀ (v : List Rat) (b : List Bool),
      (Arrow.Array.filter (.Float32 v) (.Boolean b)).bind Arrow.Array.len =
        some ((b.take v.length).count true)) ∧
    (∀ (v : List Rat) (b : List Bool),
      (Arrow.Array.filter (.Float64 v) (.Boolean b)).bind Arrow.Array.len =
        some ((b.take v.length).count true)) ∧
    (∀ (v : List Int) (b : List Bool),
      (Arrow.Array.filter (.Int32 v) (.Boolean b)).bind Arrow.Array.len =
        some ((b.take v.length).count true)) ∧
    (∀ (v : List Int) (b : List Bool),
      (Arrow.Array.filter (.Int64 v) (.Boolean b)).bind Arrow.Array.len =
        some ((b.take v.length).count true)) ∧
    (∀ (v : List String) (b : List Bool),
      (Arrow.Array.filter (.Utf8 v) (.Boolean b)).bind Arrow.Array.len =
        some ((b.take v.length).count true)) := by
  refine ⟨fun v => by simp [Arrow.Array.filter, filterVec_replicate_true],
    fun v => by simp [Arrow.Array.filter, filterVec_replicate_true],
    fun v => by simp [Arrow.Array.filter, filterVec_replicate_true],
    fun v => by simp [Arrow.Array.filter, filterVec_replicate_true],
    fun v => by simp [Arrow.Array.filter, filterVec_replicate_true],
    fun v => by simp [Arrow.Array.filter, filterVec_replicate_true],
    fun v n => by simp [Arrow.Array.filter, filterVec_replicate_false],
    fun v n => by simp [Arrow.Array.filter, filterVec_replicate_false],
    fun v n => by simp [Arrow.Array.filter, filterVec_replicate_false],
    fun v n => by simp [Arrow.Array.filter, filterVec_replicate_false],
    fun v n => by simp [Arrow.Array.filter, filterVec_replicate_false],
    fun v n => by simp [Arrow.Array.filter, filterVec_replicate_false],
    fun v b => by simp [Arrow.Array.filter, Arrow.Array.len, filterVec_length],
    fun v b => by simp [Arrow.Array.filter, Arrow.Array.len, filterVec_length],
    fun v b => by simp [Arrow.Array.filter, Arrow.Array.len, filterVec_length],
    fun v b => by simp [Arrow.Array.filter, Arrow.Array.len, filterVec_length],
    fun v b => by simp [Arrow.Array.filter, Arrow.Array.len, filterVec_length],
    fun v b => by simp [Arrow.Array.filter, Arrow.Array.len, filterVec_length]⟩

/-- C1: for a `Float64` input column, the ungrouped AggregateRelation's
MIN result is the true minimum of the concatenation of all input
batches' values and the MAX result the true maximum (`List.min?` /
`List.max?` of the concatenation, characterized as the least/greatest
member), and the result is unchanged under any re-partitioning of the
same rows into different batches. -/
theorem c1_ungrouped_min_max_concat (sch : Arrow.Schema) (bss bss2 : List (List Rat))
    (h : bss.flatten = bss2.flatten) :
    Execution.without_group_by sch [Execution.minF64Expr] (bss.map Execution.mkF64Batch) =
        .ok (some ⟨sch, [.Float64Array [bss.flatten.min?]]⟩) ∧
    Execution.without_group_by sch [Execution.maxF64Expr] (bss.map Execution.mkF64Batch) =
        .ok (some ⟨sch, [.Float64Array [bss.flatten.max?]]⟩) ∧
    (∀ q, bss.flatten.min? = some q → q ∈ bss.flatten ∧ ∀ x ∈ bss.flatten, q ≤ x) ∧
    (∀ q, bss.flatten.max? = some q → q ∈ bss.flatten ∧ ∀ x ∈ bss.flatten, x ≤ q) ∧
    Execution.without_group_by sch [Execution.minF64Expr] (bss.map Execution.mkF64Batch) =
      Execution.without_group_by sch [Execution.minF64Expr] (bss2.map Execution.mkF64Batch) ∧
    Execution.without_group_by sch [Execution.maxF64Expr] (bss.map Execution.mkF64Batch) =
      Execution.without_group_by sch [Execution.maxF64Expr] (bss2.map Execution.mkF64Batch) := by
  refine ⟨c1_min_part sch bss, c1_max_part sch bss, ?_, ?_, ?_, ?_⟩
  · intro q hq
    exact (List.min?_eq_some_iff (fun a => le_refl a) (fun a b => min_choice a b)
      (fun _ _ _ => le_min_iff)).mp hq
  · intro q hq
    exact (List.max?_eq_some_iff (fun a => le_refl a) (fun a b => max_choice a b)
      (fun _ _ _ => max_le_iff)).mp hq
  · rw [c1_min_part sch bss, c1_min_part sch bss2, h]
  · rw [c1_max_part sch bss, c1_max_part sch bss2, h]

/-- C2: in the grouped path, rows with equal composite keys update the
same (unique) map entry: after a successful run over the input, the
accumulator map's key list is duplicate-free and a key is in the map
exactly when it occurs among the keys extracted from the input's rows. -/
theorem c2_grouped_key_identity (ges aes : List Execution.RuntimeExpr)
    (bs : List Execution.RecordBatch) (m : Execution.GroupMap)
    (ks : List (List Execution.GroupByScalar))
    (h : Execution.buildMap ges aes bs = .ok m)
    (hk : Execution.inputKeys ges bs = .ok ks) :
    (m.map Prod.fst).Nodup ∧ ∀ k, k ∈ m.map Prod.fst ↔ k ∈ ks := by
  unfold Execution.buildMap at h
  obtain ⟨hnd, hiff⟩ := buildMapFrom_keys bs [] m ks h hk (by simp)
  exact ⟨hnd, fun k => by rw [hiff k]; simp⟩

/-- Witness for C2: a concrete grouped run over two one-row batches with
distinct `Int32` keys, hypotheses discharged by computation. -/
theorem c2_witness :
    (Execution.mapWit.map Prod.fst).Nodup ∧
    ∀ k, k ∈ Execution.mapWit.map Prod.fst ↔ k ∈ Execution.keysWit :=
  c2_grouped_key_identity [Execution.gExprWit] [Execution.aExprWit]
    Execution.batchesWit Execution.mapWit Execution.keysWit rfl rfl

/-- C3: the grouped path (non-empty group-expression list) of a
successful run returns `Ok(Some(batch))` whose column list is empty: the
accumulator map is built and iterated but no group-key and no
aggregate-result columns are populated. -/
theorem c3_grouped_empty_output (sch : Arrow.Schema)
    (ges aes : List Execution.RuntimeExpr) (bs : List Execution.RecordBatch)
    (m : Execution.GroupMap) (hne : ges ≠ [])
    (h : Execution.buildMap ges aes bs = .ok m) :
    Execution.next sch ges aes bs = .ok (some ⟨sch, []⟩) := by
  unfold Execution.next
  rw [if_neg (by simpa [List.isEmpty_iff] using hne)]
  unfold Execution.with_group_by
  rw [h, except_ok_bind]
  rfl

/-- Witness for C3: the concrete grouped run produces a successful batch
with an empty column list. -/
theorem c3_witness :
    Execution.next Arrow.ukSchema [Execution.gExprWit] [Execution.aExprWit]
        Execution.batchesWit = .ok (some ⟨Arrow.ukSchema, []⟩) :=
  c3_grouped_empty_output Arrow.ukSchema [Execution.gExprWit] [Execution.aExprWit]
    Execution.batchesWit Execution.mapWit (by simp) rfl

/-- Witness for C1: splitting the rows 3, 1, 2 as [3,1],[2] or as
[3],[1,2] gives the same ungrouped MIN output. -/
theorem c1_witness :
    Execution.without_group_by Arrow.ukSchema [Execution.minF64Expr]
        (([[3, 1], [2]] : List (List Rat)).map Execution.mkF64Batch) =
      Execution.without_group_by Arrow.ukSchema [Execution.minF64Expr]
        (([[3], [1, 2]] : List (List Rat)).map Execution.mkF64Batch) :=
  (c1_ungrouped_min_max_concat Arrow.ukSchema [[3, 1], [2]] [[3], [1, 2]]
    (by decide)).2.2.2.2.1

end QueryPlanner
